import Mathlib

/-!
Verification of the harsearch HAR-file search tool.

The definitions below are a shallow embedding of `src/harsearch/__main__.py`.
Python strings are modelled as `List Char`, parsed JSON values as `Json`,
Python runtime exceptions as `PyErr`, and a fallible computation as
`PyResult`.  The literal-search loop of `HARSearch.search_in_text`
(lines 92-113) is modelled with explicit fuel, so that its divergence on an
empty pattern is expressible; `PyResult.diverge` marks fuel exhaustion.
-/

namespace HarSearch

/-- JSON values as produced by Python's json module. -/
inductive Json where
  | null
  | bool (b : Bool)
  | num (n : Int)
  | str (s : String)
  | arr (xs : List Json)
  | obj (fields : List (String × Json))

/-- Python exception classes raised by the unguarded dictionary accesses in
`search_entries` (lines 126-128 subscripting, `dict.get` on non-dicts). -/
inductive PyErr where
  | keyError
  | typeError
  | attrError
deriving DecidableEq, Repr

/-- Result of running a piece of the Python program: normal value, raised
exception, or fuel exhaustion (marking a non-terminating loop). -/
inductive PyResult (A : Type) where
  | ok (a : A)
  | exc (e : PyErr)
  | diverge
deriving DecidableEq

/-- First binding of key `k` in a dict's field list (Python dicts have unique
keys, so first-match lookup is exact). -/
def lookupField (fields : List (String × Json)) (k : String) : Option Json :=
  (fields.find? (fun f => f.1 == k)).map (fun f => f.2)

/-- Python subscript `j[k]` with a string key: `KeyError` when the key is
missing from a dict, `TypeError` when subscripting a non-dict
(models lines 127-128). -/
def jIndex (j : Json) (k : String) : PyResult Json :=
  match j with
  | .obj fields =>
    match lookupField fields k with
    | some v => .ok v
    | none => .exc .keyError
  | _ => .exc .typeError

/-- Python `j.get(k, dflt)`: `AttributeError` when the receiver is not a dict
(models lines 140 and 145). -/
def jGet (j : Json) (k : String) (dflt : Json) : PyResult Json :=
  match j with
  | .obj fields => .ok ((lookupField fields k).getD dflt)
  | _ => .exc .attrError

/-- Character-by-character test that `pat` matches at the head of the text
(the comparison a single step of Python's substring search performs). -/
def headEq : List Char → List Char → Bool
  | [], _ => true
  | _ :: _, [] => false
  | a :: p, b :: l => a == b && headEq p l

/-- Python `haystack.find(needle)` restricted to searching from the front:
index of the leftmost occurrence (a position where `needle` matches
character for character), or `none`. -/
def find0 (pat : List Char) : List Char → Option Nat
  | [] => if headEq pat [] then some 0 else none
  | a :: t => if headEq pat (a :: t) then some 0 else (find0 pat t).map (fun i => i + 1)

/-- Python `haystack.find(needle, start)` (line 95): leftmost occurrence at
position `start` or later; `-1` (here `none`) when there is none or when
`start` exceeds the length. -/
def pyFind (hay pat : List Char) (start : Nat) : Option Nat :=
  if start ≤ hay.length then (find0 pat (hay.drop start)).map (fun i => i + start)
  else none

/-- Python `str.lower()`.  The model folds character by character, which is
length preserving, matching the source's assumption that case folding does
not shift offsets. -/
def pyLower (l : List Char) : List Char := l.map Char.toLower

/-- Python slice `l[a:b]` (for `a ≤ b`; both ends clamp at the length). -/
def slice (l : List Char) (a b : Nat) : List Char := (l.drop a).take (b - a)

/-- The three ANSI color strings of the source (lines 9-17): `GREEN`, `BLUE`
and `RESET`; all three degrade to the empty string when colorama is
unavailable. -/
structure Markers where
  green : List Char
  blue : List Char
  reset : List Char

/-- Rendering of one match with span `sp` inside `text` (lines 78-90 for the
regex branch and the identical lines 100-112 for the literal branch, where
the span is `(pos, pos + len(pattern))` and `match.group()` is the slice
`text[start:end]`). -/
def renderOne (M : Markers) (cc : Nat) (text url : List Char) (sp : Nat × Nat) : List Char :=
  let cs := sp.1 - cc
  let ce := min text.length (sp.2 + cc)
  let context := slice text cs ce
  let highlighted :=
    context.take (sp.1 - cs) ++ M.blue ++ slice text sp.1 sp.2 ++ M.reset ++
      context.drop (sp.2 - cs)
  M.green ++ "URL: ".toList ++ url ++ M.reset ++ ['\n'] ++ highlighted

/-- The literal-search loop of `search_in_text` (lines 93-113), generic in the
per-match rendering.  `patL`/`hayL` are the lowered pattern and text, `s` is
the running `start_pos`, and `fuel` bounds the number of iterations; `none`
means the fuel ran out, i.e. the Python loop had not finished after `fuel`
iterations.  Each iteration calls `find`, and on success emits one
rendering and restarts from the end of the match. -/
def litScanAux {A : Type} (patL hayL : List Char) (render : Nat → A) :
    Nat → Nat → Option (List A)
  | 0, _ => none
  | fuel + 1, s =>
    match pyFind hayL patL s with
    | none => some []
    | some pos =>
      (litScanAux patL hayL render fuel (pos + patL.length)).map
        (fun rest => render pos :: rest)

/-- Python truthiness of a JSON value, used by `text if text else ""`
(line 72).  String truthiness is phrased on the character list. -/
def pyTruthy : Json → Bool
  | .null => false
  | .bool b => b
  | .num n => n != 0
  | .str s => !s.toList.isEmpty
  | .arr xs => !xs.isEmpty
  | .obj fs => !fs.isEmpty

/-- Model of `HARSearch.search_in_text` (lines 60-115).  `rxIter` abstracts the
compiled regex's `finditer` span sequence (the `re` module is external
library code).  A falsy argument becomes the empty string (line 72); a
truthy non-string raises when lowered (literal branch) or scanned (regex
branch).  The literal branch runs the fuelled loop with enough fuel for
every terminating execution (`length + 1` iterations suffice for a
non-empty pattern); exhaustion, `PyResult.diverge`, means the source loop
never exits. -/
def searchInText (M : Markers) (rxIter : List Char → List (Nat × Nat))
    (isRegex : Bool) (pattern : List Char) (cc : Nat) (tv : Json) (url : List Char) :
    PyResult (List (List Char)) :=
  match (if pyTruthy tv then tv else .str "") with
  | .str s =>
    if isRegex then
      .ok ((rxIter s.toList).map (renderOne M cc s.toList url))
    else
      match litScanAux (pyLower pattern) (pyLower s.toList)
          (fun pos => renderOne M cc s.toList url (pos, pos + pattern.length))
          (s.toList.length + 1) 0 with
      | some ms => .ok ms
      | none => .diverge
  | _ => .exc (if isRegex then .typeError else .attrError)

/-- Python `str()` of a JSON value, as used by the f-strings.  The display of
nested containers is abstracted (it is only reached when a HAR value that
should be a string is a container, and no claim depends on its exact
text). -/
def jstr : Json → List Char
  | .null => "None".toList
  | .bool true => "True".toList
  | .bool false => "False".toList
  | .num n => (toString n).toList
  | .str s => s.toList
  | .arr _ => "[...]".toList
  | .obj _ => "\x7b...\x7d".toList

/-- One line of the header text, rendering the name and value fields of one
header object separated by a colon (line 141); the subscripting raises on
a malformed header object. -/
def headerLine (h : Json) : PyResult (List Char) :=
  match jIndex h "name" with
  | .ok n =>
    match jIndex h "value" with
    | .ok v => .ok (jstr n ++ ": ".toList ++ jstr v)
    | .exc e => .exc e
    | .diverge => .diverge
  | .exc e => .exc e
  | .diverge => .diverge

/-- All header lines, in order (the generator of line 141). -/
def headerLines : List Json → PyResult (List (List Char))
  | [] => .ok []
  | h :: hs =>
    match headerLine h with
    | .ok l =>
      match headerLines hs with
      | .ok ls => .ok (l :: ls)
      | .exc e => .exc e
      | .diverge => .diverge
    | .exc e => .exc e
    | .diverge => .diverge

/-- Python membership `k in j` for a string `k` (line 122): key test on
dicts, element test on lists, substring test on strings, `TypeError` on
non-containers. -/
def jContains (j : Json) (k : String) : PyResult Bool :=
  match j with
  | .obj fields => .ok (fields.any (fun f => f.1 == k))
  | .arr xs => .ok (xs.any (fun x => match x with | .str s => s == k | _ => false))
  | .str s => .ok (find0 k.toList s.toList).isSome
  | _ => .exc .typeError

/-- The resolved configuration a `HARSearch` object carries (lines 33-38):
`search_type` is the Python string `"request"` or `"response"`, `field`
one of `"url"`, `"headers"`, `"text"`. -/
structure Config where
  pattern : List Char
  isRegex : Bool
  searchType : String
  field : String
  contextChars : Nat

/-- The string `f"{GREEN}URL: {url}{RESET}\n{BLUE}{url}{RESET}"`: the whole-URL match
rendering of the url-field branch (lines 134 and 137). -/
def urlHit (M : Markers) (u : List Char) : List Char :=
  M.green ++ "URL: ".toList ++ u ++ M.reset ++ ['\n'] ++ M.blue ++ u ++ M.reset

/-- Python `pattern.lower() in url.lower()` (line 136): case-insensitive substring
containment. -/
def containsCI (pat text : List Char) : Bool :=
  (find0 (pyLower pat) (pyLower text)).isSome

/-- The body of the per-entry loop of `search_entries` (lines 126-146).
`rx` abstracts `self.regex.search` on the URL (external `re` engine).
Lines 127-128 subscript the entry unguarded; the field dispatch then
follows the source's `if`/`elif` chain. -/
def processEntry (M : Markers) (rx : List Char → Bool)
    (rxIter : List Char → List (Nat × Nat)) (P : Config) (entry : Json) :
    PyResult (List (List Char)) :=
  match jIndex entry "request" with
  | .exc e => .exc e
  | .diverge => .diverge
  | .ok req =>
    match jIndex req "url" with
    | .exc e => .exc e
    | .diverge => .diverge
    | .ok urlJ =>
      match jIndex entry P.searchType with
      | .exc e => .exc e
      | .diverge => .diverge
      | .ok target =>
        if P.field == "url" && P.searchType == "request" then
          match urlJ with
          | .str u =>
            if P.isRegex then .ok (if rx u.toList then [urlHit M u.toList] else [])
            else .ok (if containsCI P.pattern u.toList then [urlHit M u.toList] else [])
          | _ => .exc (if P.isRegex then .typeError else .attrError)
        else if P.field == "headers" then
          match jGet target "headers" (.arr []) with
          | .exc e => .exc e
          | .diverge => .diverge
          | .ok hv =>
            match hv with
            | .arr hs =>
              match headerLines hs with
              | .exc e => .exc e
              | .diverge => .diverge
              | .ok ls =>
                searchInText M rxIter P.isRegex P.pattern P.contextChars
                  (.str (String.mk (List.intercalate ['\n'] ls))) (jstr urlJ)
            | _ => .exc .typeError
        else if P.field == "text" then
          match jGet target "content" (.obj []) with
          | .exc e => .exc e
          | .diverge => .diverge
          | .ok cv =>
            match jGet cv "text" (.str "") with
            | .exc e => .exc e
            | .diverge => .diverge
            | .ok tv =>
              searchInText M rxIter P.isRegex P.pattern P.contextChars tv (jstr urlJ)
        else .ok []

/-- The entry loop of `search_entries`, accumulating `all_matches` in entry
order and propagating a raised exception or a hang. -/
def processEntries (M : Markers) (rx : List Char → Bool)
    (rxIter : List Char → List (Nat × Nat)) (P : Config) :
    List Json → PyResult (List (List Char))
  | [] => .ok []
  | e :: es =>
    match processEntry M rx rxIter P e with
    | .ok ms =>
      match processEntries M rx rxIter P es with
      | .ok rest => .ok (ms ++ rest)
      | .exc er => .exc er
      | .diverge => .diverge
    | .exc er => .exc er
    | .diverge => .diverge

/-- Result of `search_entries` after the file is parsed: the schema-error
path of lines 122-124 (which prints one error line and returns the empty
list), a normal match list, a raised exception, or a hang. -/
inductive EntriesOut where
  | schemaErr
  | ok (ms : List (List Char))
  | exc (e : PyErr)
  | diverge
deriving DecidableEq

/-- Model of `search_entries` on the parsed document (lines 117-148): the schema check
`"log" not in har_data or "entries" not in har_data["log"]` with Python's
short-circuit `or`, then the entry loop.  Iterating a non-list under
`log.entries` raises. -/
def searchEntriesJ (M : Markers) (rx : List Char → Bool)
    (rxIter : List Char → List (Nat × Nat)) (P : Config) (har : Json) : EntriesOut :=
  match jContains har "log" with
  | .exc e => .exc e
  | .diverge => .diverge
  | .ok false => .schemaErr
  | .ok true =>
    match jIndex har "log" with
    | .exc e => .exc e
    | .diverge => .diverge
    | .ok lg =>
      match jContains lg "entries" with
      | .exc e => .exc e
      | .diverge => .diverge
      | .ok false => .schemaErr
      | .ok true =>
        match jIndex lg "entries" with
        | .exc e => .exc e
        | .diverge => .diverge
        | .ok (.arr es) =>
          match processEntries M rx rxIter P es with
          | .ok ms => .ok ms
          | .exc e => .exc e
          | .diverge => .diverge
        | .ok _ => .exc .typeError

/-- Outcome of opening and parsing the HAR file: the path is missing, the
content is not valid JSON, or a parsed document (lines 48-58; the file
system and the json parser are external). -/
inductive FileData where
  | missing
  | invalid
  | parsed (j : Json)

/-- The argparse result consumed by `main` (lines 157-186): `search_type` and
`field` are `None` unless one of their flags was given. -/
structure Args where
  harFile : List Char
  pattern : List Char
  isRegex : Bool
  searchType : Option String
  field : Option String
  contextChars : Nat

/-- Observable outcome of one run: the strings printed (one list element per
`print` call, in order), the process exit code, whether the HAR file was
ever opened, and an uncaught exception if one propagated out of `main`. -/
structure Outcome where
  printed : List (List Char)
  exitCode : Nat
  fileOpened : Bool
  raised : Option PyErr
deriving DecidableEq

def msgNeedDirection : List Char := "Error: You must specify either -req or -res".toList

def msgNeedField : List Char := "Error: You must specify one of -url, -headers, or -text".toList

def msgUrlOnlyReq : List Char := "Error: -url can only be used with -req".toList

def msgBadRegex : List Char := "Invalid regular expression: ".toList

def msgSchema : List Char := "Error: Invalid HAR file format - missing log or entries.".toList

def msgNoMatches : List Char := "No matches found.".toList

def msgNotFound (p : List Char) : List Char :=
  "Error: File \x27".toList ++ p ++ "\x27 not found.".toList

def msgBadJson (p : List Char) : List Char :=
  "Error: \x27".toList ++ p ++ "\x27 is not a valid JSON file.".toList

/-- The separator printed between consecutive matches:
`"\n" + "-" * 80 + "\n"` (line 155). -/
def sepLine : List Char := '\n' :: List.replicate 80 '-' ++ ['\n']

/-- Model of `print_results` (lines 150-155): each match, with the separator after
every match except the last. -/
def printResults : List (List Char) → List (List Char)
  | [] => []
  | [m] => [m]
  | m :: ms => m :: sepLine :: printResults ms

/-- Model of `main` after argument parsing (lines 186-217): flag validation in source
order, regex compilation inside the `HARSearch` constructor (`compileOk`
abstracts whether `re.compile` succeeds), then `search_entries` —
whose first step opens the file — and result printing.  The returned
`Option` is `none` when the run never terminates. -/
def mainRun (M : Markers) (rx : List Char → Bool)
    (rxIter : List Char → List (Nat × Nat)) (compileOk : Bool)
    (args : Args) (file : FileData) : Option Outcome :=
  match args.searchType with
  | none => some ⟨[msgNeedDirection], 1, false, none⟩
  | some st =>
    match args.field with
    | none => some ⟨[msgNeedField], 1, false, none⟩
    | some fd =>
      if fd == "url" && !(st == "request") then
        some ⟨[msgUrlOnlyReq], 1, false, none⟩
      else if args.isRegex && !compileOk then
        some ⟨[msgBadRegex], 1, false, none⟩
      else
        match file with
        | .missing => some ⟨[msgNotFound args.harFile], 1, true, none⟩
        | .invalid => some ⟨[msgBadJson args.harFile], 1, true, none⟩
        | .parsed j =>
          match searchEntriesJ M rx rxIter ⟨args.pattern, args.isRegex, st, fd, args.contextChars⟩ j with
          | .schemaErr => some ⟨[msgSchema, msgNoMatches], 0, true, none⟩
          | .ok [] => some ⟨[msgNoMatches], 0, true, none⟩
          | .ok ms => some ⟨printResults ms, 0, true, none⟩
          | .exc e => some ⟨[], 1, true, some e⟩
          | .diverge => none

/-- Modelled from the spec (section 8, testable property 1): the number of
non-overlapping, leftmost-first occurrences of `pat` in `text` — at each
step take the leftmost occurrence and resume after its end.  Applied to
lowered strings this is the case-insensitive count the spec describes.
This is the spec-side counting function, to be compared with the number of
matches the source loop emits. -/
def nonOverlapOcc (pat text : List Char) : Nat :=
  if hp : pat = [] then 0
  else if headEq pat text then 1 + nonOverlapOcc pat (text.drop pat.length)
  else
    match text with
    | [] => 0
    | _ :: t => nonOverlapOcc pat t
termination_by text.length
decreasing_by
  · simp only [List.length_drop]
    rcases pat with _ | ⟨a, p⟩
    · exact absurd rfl hp
    · rcases text with _ | ⟨b, t⟩
      · simp [headEq] at *
      · simp [List.length]
        omega
  · simp [List.length]

/-- The precondition `search_entries` needs of one entry (claim C10): a JSON
object with a `"request"` object that has a `"url"` key, and an object
under the selected direction key. -/
def entryWF (dir : String) (entry : Json) : Prop :=
  ∃ fs reqf, entry = .obj fs ∧ lookupField fs "request" = some (.obj reqf) ∧
    (∃ u, lookupField reqf "url" = some u) ∧
    (∃ tf, lookupField fs dir = some (.obj tf))

theorem headEq_nil_left (l : List Char) : headEq [] l = true := rfl

theorem headEq_length {p l : List Char} (h : headEq p l = true) : p.length ≤ l.length := by
  induction p generalizing l with
  | nil => simp
  | cons a p ih =>
    rcases l with _ | ⟨b, t⟩
    · simp [headEq] at h
    · simp only [headEq, Bool.and_eq_true] at h
      have := ih h.2
      simp [List.length]
      omega

theorem find0_some {p l : List Char} {k : Nat} (h : find0 p l = some k) :
    k ≤ l.length ∧ headEq p (l.drop k) = true := by
  induction l generalizing k with
  | nil =>
    by_cases hh : headEq p [] = true
    · simp [find0, hh] at h
      subst h
      exact ⟨Nat.le_refl 0, hh⟩
    · simp [find0, hh] at h
  | cons a t ih =>
    by_cases hh : headEq p (a :: t) = true
    · simp [find0, hh] at h
      subst h
      exact ⟨Nat.zero_le _, hh⟩
    · simp [find0, hh] at h
      obtain ⟨k0, hk0, hk⟩ := h
      obtain ⟨h1, h2⟩ := ih hk0
      subst hk
      constructor
      · simp [List.length]; omega
      · simpa using h2

theorem find0_none {p l : List Char} (h : find0 p l = none) :
    ∀ k, headEq p (l.drop k) = false := by
  induction l with
  | nil =>
    intro k
    by_cases hh : headEq p [] = true
    · simp [find0, hh] at h
    · simpa using hh
  | cons a t ih =>
    intro k
    by_cases hh : headEq p (a :: t) = true
    · simp [find0, hh] at h
    · simp [find0, hh] at h
      rcases k with _ | k
      · simpa using hh
      · simpa using ih h k

theorem find0_isSome_iff (p l : List Char) :
    (find0 p l).isSome = true ↔ ∃ k, headEq p (l.drop k) = true := by
  constructor
  · intro h
    obtain ⟨k, hk⟩ := Option.isSome_iff_exists.mp h
    exact ⟨k, (find0_some hk).2⟩
  · rintro ⟨k, hk⟩
    rcases hf : find0 p l with _ | k0
    · exact absurd hk (by simp [find0_none hf k])
    · simp

theorem find0_nil_pat (l : List Char) : find0 [] l = some 0 := by
  cases l <;> simp [find0, headEq]

theorem pyFind_some {hay pat : List Char} {s pos : Nat}
    (h : pyFind hay pat s = some pos) :
    s ≤ pos ∧ pos + pat.length ≤ hay.length ∧ headEq pat (hay.drop pos) = true := by
  unfold pyFind at h
  by_cases hs : s ≤ hay.length
  · simp only [hs, if_pos] at h
    obtain ⟨k, hk, hkpos⟩ := Option.map_eq_some'.mp h
    obtain ⟨h1, h2⟩ := find0_some hk
    rw [List.drop_drop] at h2
    have hlen := headEq_length h2
    rw [List.length_drop] at h1 hlen
    refine ⟨by omega, by omega, ?_⟩
    rw [show pos = s + k by omega]
    exact h2
  · simp [hs] at h

theorem pyFind_none {hay pat : List Char} {s : Nat}
    (h : pyFind hay pat s = none) (hs : s ≤ hay.length) :
    find0 pat (hay.drop s) = none := by
  unfold pyFind at h
  simp only [hs, if_pos, Option.map_eq_none'] at h
  exact h

theorem pyFind_nil_pat {hay : List Char} {s : Nat} (hs : s ≤ hay.length) :
    pyFind hay [] s = some s := by
  unfold pyFind
  simp [hs, find0_nil_pat]

theorem pyFind_some_decomp {hay pat : List Char} {s pos : Nat}
    (h : pyFind hay pat s = some pos) :
    s ≤ hay.length ∧ ∃ k, find0 pat (hay.drop s) = some k ∧ k + s = pos := by
  unfold pyFind at h
  by_cases hs : s ≤ hay.length
  · simp only [hs, if_pos] at h
    obtain ⟨k, hk, hkpos⟩ := Option.map_eq_some'.mp h
    exact ⟨hs, k, hk, hkpos⟩
  · simp [hs] at h

theorem litScanAux_map {A : Type} (patL hayL : List Char) (f : Nat → A) :
    ∀ fuel s, litScanAux patL hayL f fuel s =
      (litScanAux patL hayL id fuel s).map (List.map f) := by
  intro fuel
  induction fuel with
  | zero => intro s; rfl
  | succ n ih =>
    intro s
    simp only [litScanAux]
    cases pyFind hayL patL s with
    | none => rfl
    | some pos =>
      dsimp only
      rw [ih]
      cases litScanAux patL hayL id n (pos + patL.length) <;> simp

theorem litScanAux_isSome {A : Type} {patL : List Char} (hp : patL ≠ [])
    (hayL : List Char) (f : Nat → A) :
    ∀ fuel s, hayL.length - s < fuel → ∃ l, litScanAux patL hayL f fuel s = some l := by
  intro fuel
  induction fuel with
  | zero => intro s h; omega
  | succ n ih =>
    intro s h
    simp only [litScanAux]
    cases hf : pyFind hayL patL s with
    | none => exact ⟨[], rfl⟩
    | some pos =>
      obtain ⟨h1, h2, _⟩ := pyFind_some hf
      have hplen : 0 < patL.length := List.length_pos.mpr hp
      obtain ⟨l, hl⟩ := ih (pos + patL.length) (by omega)
      exact ⟨f pos :: l, by dsimp only; rw [hl]; rfl⟩

theorem litScanAux_mem {patL hayL : List Char} :
    ∀ fuel s sp, litScanAux patL hayL id fuel s = some sp →
      ∀ pos ∈ sp, s ≤ pos ∧ pos + patL.length ≤ hayL.length ∧
        headEq patL (hayL.drop pos) = true := by
  intro fuel
  induction fuel with
  | zero => intro s sp h; simp [litScanAux] at h
  | succ n ih =>
    intro s sp h
    simp only [litScanAux] at h
    cases hf : pyFind hayL patL s with
    | none =>
      rw [hf] at h
      obtain rfl : ([] : List Nat) = sp := Option.some.inj h
      intro pos hpos
      simp at hpos
    | some pos0 =>
      rw [hf] at h
      obtain ⟨rest, hrest, hcons⟩ := Option.map_eq_some'.mp h
      obtain ⟨ha, hb, hc⟩ := pyFind_some hf
      intro pos hpos
      rw [← hcons] at hpos
      rcases List.mem_cons.mp hpos with h0 | h0
      · subst h0
        exact ⟨ha, hb, hc⟩
      · obtain ⟨q1, q2, q3⟩ := ih _ _ hrest pos h0
        exact ⟨by omega, q2, q3⟩

theorem litScanAux_nil_pat {A : Type} (hayL : List Char) (f : Nat → A) :
    ∀ fuel, litScanAux [] hayL f fuel 0 = none := by
  intro fuel
  induction fuel with
  | zero => rfl
  | succ n ih =>
    simp only [litScanAux]
    rw [pyFind_nil_pat (Nat.zero_le _)]
    simpa using congrArg (Option.map (fun rest => f 0 :: rest)) ih

theorem nonOverlapOcc_nil {pat : List Char} (hp : pat ≠ []) : nonOverlapOcc pat [] = 0 := by
  rw [nonOverlapOcc]
  rcases pat with _ | ⟨a, p⟩
  · exact absurd rfl hp
  · simp [headEq]

theorem occ_of_find0_none {pat l : List Char} (hp : pat ≠ []) (h : find0 pat l = none) :
    nonOverlapOcc pat l = 0 := by
  induction l with
  | nil => exact nonOverlapOcc_nil hp
  | cons a t ih =>
    have hh : headEq pat (a :: t) = false := by
      by_cases hh : headEq pat (a :: t) = true
      · simp [find0, hh] at h
      · simpa using hh
    have ht : find0 pat t = none := by
      simp only [find0, hh, Bool.false_eq_true, if_false, Option.map_eq_none'] at h
      exact h
    rw [nonOverlapOcc]
    simp only [hp, dif_neg, hh, Bool.false_eq_true, if_false]
    exact ih ht

theorem occ_of_find0_some {pat l : List Char} {k : Nat} (hp : pat ≠ [])
    (h : find0 pat l = some k) :
    nonOverlapOcc pat l = 1 + nonOverlapOcc pat (l.drop (k + pat.length)) := by
  induction l generalizing k with
  | nil =>
    rcases pat with _ | ⟨a, p⟩
    · exact absurd rfl hp
    · simp [find0, headEq] at h
  | cons a t ih =>
    by_cases hh : headEq pat (a :: t) = true
    · have hk : k = 0 := by
        simp [find0, hh] at h
        omega
      subst hk
      rw [nonOverlapOcc]
      simp [hp, hh]
    · simp only [find0, hh, Bool.false_eq_true, if_false, Option.map_eq_some'] at h
      obtain ⟨k0, hk0, hk⟩ := h
      rw [nonOverlapOcc]
      simp only [hp, dif_neg, hh, Bool.false_eq_true, if_false]
      rw [ih hk0]
      rw [show k + pat.length = (k0 + pat.length) + 1 by omega]
      rfl

theorem litScanAux_length {patL hayL : List Char} (hp : patL ≠ []) :
    ∀ fuel s sp, litScanAux patL hayL id fuel s = some sp →
      sp.length = nonOverlapOcc patL (hayL.drop s) := by
  intro fuel
  induction fuel with
  | zero => intro s sp h; simp [litScanAux] at h
  | succ n ih =>
    intro s sp h
    simp only [litScanAux] at h
    cases hf : pyFind hayL patL s with
    | none =>
      rw [hf] at h
      obtain rfl : ([] : List Nat) = sp := Option.some.inj h
      by_cases hs : s ≤ hayL.length
      · exact (occ_of_find0_none hp (pyFind_none hf hs)).symm
      · have hd : hayL.drop s = [] := List.drop_eq_nil_of_le (by omega)
        rw [hd, nonOverlapOcc_nil hp]
        rfl
    | some pos =>
      rw [hf] at h
      obtain ⟨rest, hrest, hcons⟩ := Option.map_eq_some'.mp h
      obtain ⟨hs, k, hk, hkpos⟩ := pyFind_some_decomp hf
      rw [← hcons]
      simp only [List.length_cons, id_eq]
      rw [ih _ _ hrest]
      rw [occ_of_find0_some hp hk, List.drop_drop]
      rw [show s + (k + patL.length) = pos + patL.length by omega]
      omega

theorem slice_take {l : List Char} {a b p : Nat} (hpb : p ≤ b) :
    (slice l a b).take (p - a) = slice l a p := by
  unfold slice
  rw [List.take_take]
  congr 1
  omega

theorem slice_drop {l : List Char} {a b e : Nat} (hae : a ≤ e) :
    (slice l a b).drop (e - a) = slice l e b := by
  unfold slice
  rw [List.drop_take, List.drop_drop, show a + (e - a) = e by omega]
  congr 1
  omega

theorem slice_append {l : List Char} {a p b : Nat} (hap : a ≤ p) (hpb : p ≤ b) :
    slice l a p ++ slice l p b = slice l a b := by
  unfold slice
  have h1 : l.drop p = (l.drop a).drop (p - a) := by
    rw [List.drop_drop]
    congr 1
    omega
  rw [h1, show b - a = (p - a) + (b - p) by omega, List.take_add]

theorem searchInText_str (M : Markers) (it : List Char → List (Nat × Nat))
    (isRegex : Bool) (pat : List Char) (cc : Nat) (s : String) (url : List Char) :
    searchInText M it isRegex pat cc (.str s) url =
      (if isRegex then
        PyResult.ok ((it s.toList).map (renderOne M cc s.toList url))
      else
        match litScanAux (pyLower pat) (pyLower s.toList)
            (fun pos => renderOne M cc s.toList url (pos, pos + pat.length))
            (s.toList.length + 1) 0 with
        | some ms => .ok ms
        | none => .diverge) := by
  unfold searchInText
  by_cases he : s.toList.isEmpty
  · have hnil : s.toList = [] := by simpa using he
    have h0 : ("" : String).toList = [] := rfl
    simp only [pyTruthy, he, Bool.not_true, Bool.false_eq_true, if_false]
    rw [hnil, h0]
  · simp only [pyTruthy, he, Bool.not_false, if_true]

theorem renderOne_decomp (M : Markers) (cc : Nat) (text url : List Char) (pos e : Nat)
    (hpe : pos ≤ e) (he : e ≤ text.length) :
    renderOne M cc text url (pos, e) =
      M.green ++ "URL: ".toList ++ url ++ M.reset ++ ['\n'] ++
        (slice text (pos - cc) pos ++ M.blue ++ slice text pos e ++ M.reset ++
          slice text e (min text.length (e + cc))) := by
  unfold renderOne
  dsimp only
  rw [slice_take (show pos ≤ min text.length (e + cc) by omega)]
  rw [slice_drop (show pos - cc ≤ e by omega)]

/-- Literal-branch characterization of `search_in_text` on a string value:
for a non-empty pattern the loop terminates with a list of spans; the
returned matches are those spans rendered; every span is in range and is a
case-insensitive occurrence of the pattern; and the number of spans is the
spec-side occurrence count. -/
theorem searchInText_lit (M : Markers) (it : List Char → List (Nat × Nat))
    (pat : List Char) (cc : Nat) (s : String) (url : List Char) (hp : pat ≠ []) :
    ∃ sp : List Nat,
      litScanAux (pyLower pat) (pyLower s.toList) id (s.toList.length + 1) 0 = some sp ∧
      searchInText M it false pat cc (.str s) url =
        .ok (sp.map (fun pos => renderOne M cc s.toList url (pos, pos + pat.length))) ∧
      (∀ pos ∈ sp, pos + pat.length ≤ s.toList.length ∧
        headEq (pyLower pat) ((pyLower s.toList).drop pos) = true) ∧
      sp.length = nonOverlapOcc (pyLower pat) (pyLower s.toList) := by
  have hpL : pyLower pat ≠ [] := by simpa [pyLower] using hp
  have hlen : (pyLower s.toList).length = s.toList.length := by simp [pyLower]
  obtain ⟨sp, hsp⟩ :=
    litScanAux_isSome hpL (pyLower s.toList) id (s.toList.length + 1) 0
      (by rw [hlen]; omega)
  refine ⟨sp, hsp, ?_, ?_, ?_⟩
  · rw [searchInText_str]
    simp only [Bool.false_eq_true, if_false]
    rw [litScanAux_map, hsp]
    rfl
  · intro pos hpos
    obtain ⟨_, h2, h3⟩ := litScanAux_mem _ _ _ hsp pos hpos
    rw [hlen] at h2
    have hpat : (pyLower pat).length = pat.length := by simp [pyLower]
    exact ⟨by omega, h3⟩
  · have h := litScanAux_length hpL _ _ _ hsp
    simpa using h

/-- A falsy field value (absent body text coerced to `""`, JSON `null`, the
empty string itself) is searched as the empty string, and a non-empty
literal pattern finds nothing there. -/
theorem searchInText_falsy (M : Markers) (it : List Char → List (Nat × Nat))
    (pat : List Char) (cc : Nat) (url : List Char) (tv : Json)
    (hp : pat ≠ []) (ht : pyTruthy tv = false) :
    searchInText M it false pat cc tv url = .ok [] := by
  rcases pat with _ | ⟨a, p⟩
  · exact absurd rfl hp
  · unfold searchInText
    rw [ht]
    rfl

/-- Claim C1 — spec: a HAR document whose top level lacks `log` (or whose
`log` lacks `entries`) ends the run with a single error line and exit code
1.  The code instead prints the schema error line, returns an empty match
list, and `main` then prints `"No matches found."` and exits 0.  This
theorem evaluates the modelled run on both failing documents. -/
theorem claim1_schema_error_exits_zero :
    mainRun ⟨[], [], []⟩ (fun _ => false) (fun _ => []) true
        ⟨"capture.har".toList, "x".toList, false, some "request", some "text", 50⟩
        (.parsed (.obj [("notlog", .null)])) =
      some ⟨[msgSchema, msgNoMatches], 0, true, none⟩ ∧
    mainRun ⟨[], [], []⟩ (fun _ => false) (fun _ => []) true
        ⟨"capture.har".toList, "x".toList, false, some "request", some "text", 50⟩
        (.parsed (.obj [("log", .obj [("creator", .null)])])) =
      some ⟨[msgSchema, msgNoMatches], 0, true, none⟩ :=
  ⟨rfl, rfl⟩

/-- Claim C2 — spec: the literal search with an empty pattern terminates
(rejected upstream or zero matches).  The code does neither: `find` keeps
returning the current position, `end_pos = pos + 0` never advances, and the
loop runs forever.  First conjunct: no amount of fuel finishes the loop on
any text; second conjunct: `search_in_text` therefore diverges. -/
theorem claim2_empty_pattern_never_terminates :
    (∀ (hayL : List Char) (f : Nat → List Char) (fuel : Nat),
      litScanAux [] hayL f fuel 0 = none) ∧
    (∀ (M : Markers) (it : List Char → List (Nat × Nat)) (cc : Nat) (s : String)
      (url : List Char), searchInText M it false [] cc (.str s) url = .diverge) := by
  constructor
  · intro hayL f fuel
    exact litScanAux_nil_pat hayL f fuel
  · intro M it cc s url
    rw [searchInText_str]
    simp only [Bool.false_eq_true, if_false]
    rw [show pyLower [] = ([] : List Char) from rfl]
    rw [litScanAux_nil_pat]

/-- Claim C3: for every field text and non-empty literal pattern, the number
of rendered match records equals the number of non-overlapping,
leftmost-first, case-insensitive occurrences of the pattern in the text
(the spec-side count `nonOverlapOcc` on the lowered strings). -/
theorem claim3_literal_match_count (M : Markers) (it : List Char → List (Nat × Nat))
    (pat : List Char) (cc : Nat) (s : String) (url : List Char) (hp : pat ≠ []) :
    ∃ ms, searchInText M it false pat cc (.str s) url = .ok ms ∧
      ms.length = nonOverlapOcc (pyLower pat) (pyLower s.toList) := by
  obtain ⟨sp, _, hrun, _, hcount⟩ := searchInText_lit M it pat cc s url hp
  refine ⟨_, hrun, ?_⟩
  rw [List.length_map]
  exact hcount

theorem claim3_witness :
    ("ab".toList ≠ [] ∧
      ∃ ms, searchInText ⟨[], [], []⟩ (fun _ => []) false "ab".toList 2 (.str "xAbaB")
          "u".toList =
        .ok ms ∧ ms.length = nonOverlapOcc (pyLower "ab".toList) (pyLower "xAbaB".toList)) :=
  ⟨by decide, claim3_literal_match_count ⟨[], [], []⟩ (fun _ => []) "ab".toList 2 "xAbaB"
    "u".toList (by decide)⟩

/-- Claim C4: each rendered literal match consists of the URL header line
followed by the context window with the highlight markers wrapping exactly
the matched span's original-case text, at offsets taken in the original
string; with the markers stripped, the three window pieces concatenate
back to the original field substring `text[contextStart:contextEnd]`
(round trip). -/
theorem claim4_highlight_round_trip (M : Markers) (it : List Char → List (Nat × Nat))
    (pat : List Char) (cc : Nat) (s : String) (url : List Char)
    (ms : List (List Char)) (hp : pat ≠ [])
    (hrun : searchInText M it false pat cc (.str s) url = .ok ms) :
    ∀ m ∈ ms, ∃ pos,
      pos + pat.length ≤ s.toList.length ∧
      m = M.green ++ "URL: ".toList ++ url ++ M.reset ++ ['\n'] ++
        (slice s.toList (pos - cc) pos ++ M.blue ++
          slice s.toList pos (pos + pat.length) ++ M.reset ++
          slice s.toList (pos + pat.length)
            (min s.toList.length (pos + pat.length + cc))) ∧
      slice s.toList (pos - cc) pos ++ slice s.toList pos (pos + pat.length) ++
          slice s.toList (pos + pat.length)
            (min s.toList.length (pos + pat.length + cc)) =
        slice s.toList (pos - cc) (min s.toList.length (pos + pat.length + cc)) := by
  obtain ⟨sp, _, hrun2, hmem, _⟩ := searchInText_lit M it pat cc s url hp
  rw [hrun] at hrun2
  obtain rfl : ms = _ := PyResult.ok.inj hrun2
  intro m hm
  obtain ⟨pos, hpos, hrender⟩ := List.mem_map.mp hm
  obtain ⟨hbound, _⟩ := hmem pos hpos
  have hce : pos + pat.length ≤ min s.toList.length (pos + pat.length + cc) := by omega
  refine ⟨pos, hbound, ?_, ?_⟩
  · rw [← hrender,
      renderOne_decomp M cc s.toList url pos (pos + pat.length) (by omega) hbound]
  · rw [slice_append (show pos - cc ≤ pos by omega) (show pos ≤ pos + pat.length by omega)]
    exact slice_append (by omega) hce

theorem claim4_witness :
    ∃ pos,
      pos + "an".toList.length ≤ "bAnana".toList.length ∧
      "GURL: uR\nbBAnRa".toList =
        "G".toList ++ "URL: ".toList ++ "u".toList ++ "R".toList ++ ['\n'] ++
          (slice "bAnana".toList (pos - 1) pos ++ "B".toList ++
            slice "bAnana".toList pos (pos + "an".toList.length) ++ "R".toList ++
            slice "bAnana".toList (pos + "an".toList.length)
              (min "bAnana".toList.length (pos + "an".toList.length + 1))) ∧
      slice "bAnana".toList (pos - 1) pos ++
          slice "bAnana".toList pos (pos + "an".toList.length) ++
          slice "bAnana".toList (pos + "an".toList.length)
            (min "bAnana".toList.length (pos + "an".toList.length + 1)) =
        slice "bAnana".toList (pos - 1)
          (min "bAnana".toList.length (pos + "an".toList.length + 1)) :=
  claim4_highlight_round_trip ⟨"G".toList, "B".toList, "R".toList⟩ (fun _ => [])
    "an".toList 1 "bAnana" "u".toList
    ["GURL: uR\nbBAnRa".toList, "GURL: uR\nnBanRa".toList] (by decide) rfl
    "GURL: uR\nbBAnRa".toList (by simp)

/-- Claim C5: for every emitted literal match with span
`[pos, pos + len(pattern))`, the context window used in the rendering is
`text[max(0, pos - cc) : min(len(text), end + cc)]` — Nat subtraction
realizes the `max 0` clamp (stated over the integers) — so the window
never extends more than `cc` characters on either side, never past the
text's boundaries, and its extraction is exactly that in-range slice. -/
theorem claim5_context_window_bounds (M : Markers) (it : List Char → List (Nat × Nat))
    (pat : List Char) (cc : Nat) (s : String) (url : List Char)
    (ms : List (List Char)) (hp : pat ≠ [])
    (hrun : searchInText M it false pat cc (.str s) url = .ok ms) :
    ∀ m ∈ ms, ∃ pos,
      m = renderOne M cc s.toList url (pos, pos + pat.length) ∧
      pos + pat.length ≤ s.toList.length ∧
      ((pos - cc : Nat) : Int) = max 0 ((pos : Int) - (cc : Int)) ∧
      pos - cc ≤ pos ∧ pos - (pos - cc) ≤ cc ∧
      pos + pat.length ≤ min s.toList.length (pos + pat.length + cc) ∧
      min s.toList.length (pos + pat.length + cc) - (pos + pat.length) ≤ cc ∧
      min s.toList.length (pos + pat.length + cc) ≤ s.toList.length ∧
      (slice s.toList (pos - cc) (min s.toList.length (pos + pat.length + cc))).length =
        min s.toList.length (pos + pat.length + cc) - (pos - cc) := by
  obtain ⟨sp, _, hrun2, hmem, _⟩ := searchInText_lit M it pat cc s url hp
  rw [hrun] at hrun2
  obtain rfl : ms = _ := PyResult.ok.inj hrun2
  intro m hm
  obtain ⟨pos, hpos, hrender⟩ := List.mem_map.mp hm
  obtain ⟨hbound, _⟩ := hmem pos hpos
  refine ⟨pos, hrender.symm, hbound, by omega, by omega, by omega, by omega, by omega,
    by omega, ?_⟩
  simp only [slice, List.length_take, List.length_drop]
  omega

theorem claim5_witness :
    ∃ pos,
      "GURL: uR\nnBanRa".toList =
        renderOne ⟨"G".toList, "B".toList, "R".toList⟩ 1 "bAnana".toList "u".toList
          (pos, pos + "an".toList.length) ∧
      pos + "an".toList.length ≤ "bAnana".toList.length ∧
      ((pos - 1 : Nat) : Int) = max 0 ((pos : Int) - (1 : Int)) ∧
      pos - 1 ≤ pos ∧ pos - (pos - 1) ≤ 1 ∧
      pos + "an".toList.length ≤ min "bAnana".toList.length (pos + "an".toList.length + 1) ∧
      min "bAnana".toList.length (pos + "an".toList.length + 1) -
          (pos + "an".toList.length) ≤ 1 ∧
      min "bAnana".toList.length (pos + "an".toList.length + 1) ≤ "bAnana".toList.length ∧
      (slice "bAnana".toList (pos - 1)
          (min "bAnana".toList.length (pos + "an".toList.length + 1))).length =
        min "bAnana".toList.length (pos + "an".toList.length + 1) - (pos - 1) :=
  claim5_context_window_bounds ⟨"G".toList, "B".toList, "R".toList⟩ (fun _ => [])
    "an".toList 1 "bAnana" "u".toList
    ["GURL: uR\nbBAnRa".toList, "GURL: uR\nnBanRa".toList] (by decide) rfl
    "GURL: uR\nnBanRa".toList (by simp)

/-- Claim C6: combining the `-url` field flag with the `-res` direction flag
is rejected before any file access: one error line, exit code 1, and the
HAR file is never opened, for every file-system state. -/
theorem claim6_url_res_rejected (M : Markers) (rx : List Char → Bool)
    (it : List Char → List (Nat × Nat)) (co : Bool) (a : Args) (file : FileData)
    (hf : a.field = some "url") (hs : a.searchType = some "response") :
    mainRun M rx it co a file = some ⟨[msgUrlOnlyReq], 1, false, none⟩ := by
  rcases a with ⟨h1, p1, r1, st, fd, c1⟩
  simp only [Args.field] at hf
  simp only [Args.searchType] at hs
  subst hf
  subst hs
  rfl

theorem claim6_witness :
    mainRun ⟨[], [], []⟩ (fun _ => false) (fun _ => []) true
        ⟨"a.har".toList, "p".toList, false, some "response", some "url", 50⟩
        (.parsed (.obj [])) =
      some ⟨[msgUrlOnlyReq], 1, false, none⟩ :=
  claim6_url_res_rejected ⟨[], [], []⟩ (fun _ => false) (fun _ => []) true
    ⟨"a.har".toList, "p".toList, false, some "response", some "url", 50⟩
    (.parsed (.obj [])) rfl rfl

theorem jIndex_ok {j : Json} {k : String} {v : Json} (h : jIndex j k = .ok v) :
    ∃ fields, j = .obj fields ∧ lookupField fields k = some v := by
  cases j with
  | obj fields =>
    refine ⟨fields, rfl, ?_⟩
    have hu : jIndex (Json.obj fields) k =
        (match lookupField fields k with
          | some v0 => PyResult.ok v0
          | none => .exc .keyError) := rfl
    cases hl : lookupField fields k with
    | none =>
      rw [hl] at hu
      rw [hu] at h
      cases h
    | some v0 =>
      rw [hl] at hu
      rw [hu] at h
      rw [PyResult.ok.inj h]
  | null => cases h
  | bool b => cases h
  | num n => cases h
  | str s => cases h
  | arr xs => cases h

theorem jGet_obj {j : Json} {k : String} {d v : Json} (h : jGet j k d = .ok v) :
    ∃ fields, j = .obj fields := by
  cases j with
  | obj fields => exact ⟨fields, rfl⟩
  | null => cases h
  | bool b => cases h
  | num n => cases h
  | str s => cases h
  | arr xs => cases h

/-- Claim C7: with field `url` and direction `request`, the per-entry search
is a pure whole-string test on the URL (containment for a literal pattern,
`regex.search` for a regex): a matching entry contributes exactly one
rendered match — the whole URL highlighted — however many times the
pattern occurs inside the URL, and a non-matching entry contributes none.
The second conjunct characterizes the containment test as the existence of
an occurrence position in the lowered strings. -/
theorem claim7_url_whole_string (M : Markers) (rx : List Char → Bool)
    (it : List Char → List (Nat × Nat)) (P : Config) (entry req : Json) (u : String)
    (hf : P.field = "url") (hst : P.searchType = "request")
    (h1 : jIndex entry "request" = .ok req) (h2 : jIndex req "url" = .ok (.str u)) :
    processEntry M rx it P entry =
      .ok (if (if P.isRegex then rx u.toList else containsCI P.pattern u.toList) then
        [urlHit M u.toList] else []) ∧
    (containsCI P.pattern u.toList = true ↔
      ∃ k, headEq (pyLower P.pattern) ((pyLower u.toList).drop k) = true) := by
  constructor
  · unfold processEntry
    rw [hst, h1]
    dsimp only
    rw [h2]
    dsimp only
    rw [hf]
    cases hr : P.isRegex <;> simp
  · exact find0_isSome_iff _ _

theorem claim7_witness :
    (processEntry ⟨[], [], []⟩ (fun _ => false) (fun _ => [])
        ⟨"example.com".toList, false, "request", "url", 50⟩
        (.obj [("request", .obj [("url", .str "http://example.com/api")]),
          ("response", .obj [])]) =
      .ok (if (if false then (fun _ => false) "http://example.com/api".toList
          else containsCI "example.com".toList "http://example.com/api".toList) then
        [urlHit ⟨[], [], []⟩ "http://example.com/api".toList] else []) ∧
      (containsCI "example.com".toList "http://example.com/api".toList = true ↔
        ∃ k, headEq (pyLower "example.com".toList)
          ((pyLower "http://example.com/api".toList).drop k) = true)) ∧
    containsCI "example.com".toList "http://example.com/api".toList = true :=
  ⟨claim7_url_whole_string ⟨[], [], []⟩ (fun _ => false) (fun _ => [])
      ⟨"example.com".toList, false, "request", "url", 50⟩
      (.obj [("request", .obj [("url", .str "http://example.com/api")]),
        ("response", .obj [])])
      (.obj [("url", .str "http://example.com/api")]) "http://example.com/api"
      rfl rfl rfl rfl,
    by decide⟩

/-- Claim C8 (amended): within an otherwise well-shaped entry and for a
non-empty literal pattern, a missing `headers` array defaults to the empty
sequence and a missing `content`, missing `content.text`, or JSON-null
`content.text` defaults to the empty string; such entries yield zero
matches for that field and no error.  (The unamended claim, with no
restriction on the pattern, fails: see the counterexample, where the empty
pattern makes the search loop hang on the defaulted empty text.) -/
theorem claim8_missing_optional_defaults (M : Markers) (rx : List Char → Bool)
    (it : List Char → List (Nat × Nat)) (P : Config) (entry req urlJ : Json)
    (tf : List (String × Json)) (hr : P.isRegex = false) (hp : P.pattern ≠ [])
    (h1 : jIndex entry "request" = .ok req) (h2 : jIndex req "url" = .ok urlJ)
    (h3 : jIndex entry P.searchType = .ok (.obj tf)) :
    (P.field = "headers" → lookupField tf "headers" = none →
      processEntry M rx it P entry = .ok []) ∧
    (P.field = "text" → lookupField tf "content" = none →
      processEntry M rx it P entry = .ok []) ∧
    (∀ cf, P.field = "text" → lookupField tf "content" = some (.obj cf) →
      (lookupField cf "text" = none ∨ lookupField cf "text" = some .null) →
      processEntry M rx it P entry = .ok []) := by
  refine ⟨?_, ?_, ?_⟩
  · intro hfe hh
    unfold processEntry
    rw [h1]
    dsimp only
    rw [h2]
    dsimp only
    rw [h3]
    dsimp only
    rw [hfe, hr]
    simp only [show (("headers" : String) == "url") = false from rfl, Bool.false_and,
      Bool.false_eq_true, if_false, show (("headers" : String) == "headers") = true from rfl,
      if_true]
    have hg : jGet (Json.obj tf) "headers" (Json.arr []) = .ok (Json.arr []) := by
      unfold jGet
      dsimp only
      rw [hh]
      rfl
    rw [hg]
    dsimp only [headerLines]
    exact searchInText_falsy M it P.pattern P.contextChars (jstr urlJ) _ hp rfl
  · intro hfe hh
    unfold processEntry
    rw [h1]
    dsimp only
    rw [h2]
    dsimp only
    rw [h3]
    dsimp only
    rw [hfe, hr]
    simp only [show (("text" : String) == "url") = false from rfl, Bool.false_and,
      Bool.false_eq_true, if_false, show (("text" : String) == "headers") = false from rfl,
      show (("text" : String) == "text") = true from rfl, if_true]
    have hg : jGet (Json.obj tf) "content" (Json.obj []) = .ok (Json.obj []) := by
      unfold jGet
      dsimp only
      rw [hh]
      rfl
    rw [hg]
    dsimp only
    exact searchInText_falsy M it P.pattern P.contextChars (jstr urlJ) _ hp rfl
  · intro cf hfe hh htx
    unfold processEntry
    rw [h1]
    dsimp only
    rw [h2]
    dsimp only
    rw [h3]
    dsimp only
    rw [hfe, hr]
    simp only [show (("text" : String) == "url") = false from rfl, Bool.false_and,
      Bool.false_eq_true, if_false, show (("text" : String) == "headers") = false from rfl,
      show (("text" : String) == "text") = true from rfl, if_true]
    have hg : jGet (Json.obj tf) "content" (Json.obj []) = .ok (Json.obj cf) := by
      unfold jGet
      dsimp only
      rw [hh]
      rfl
    rw [hg]
    dsimp only
    rcases htx with htx | htx
    · have hg2 : jGet (Json.obj cf) "text" (Json.str "") = .ok (Json.str "") := by
        unfold jGet
        dsimp only
        rw [htx]
        rfl
      rw [hg2]
      dsimp only
      exact searchInText_falsy M it P.pattern P.contextChars (jstr urlJ) _ hp rfl
    · have hg2 : jGet (Json.obj cf) "text" (Json.str "") = .ok Json.null := by
        unfold jGet
        dsimp only
        rw [htx]
        rfl
      rw [hg2]
      dsimp only
      exact searchInText_falsy M it P.pattern P.contextChars (jstr urlJ) _ hp rfl

/-- Claim C8 counterexample: an entry with a missing `content.text`, searched
in the text field with the (literal) empty pattern, does not produce zero
matches — the search loop never finishes (the defaulted empty text is
searched for the empty pattern, which re-matches at position 0 forever),
so the claim's "never an error or termination" outcome is not reached. -/
theorem claim8_counterexample :
    processEntry ⟨[], [], []⟩ (fun _ => false) (fun _ => [])
        ⟨[], false, "response", "text", 50⟩
        (.obj [("request", .obj [("url", .str "u")]), ("response", .obj [])]) =
      .diverge ∧
    PyResult.diverge ≠ PyResult.ok ([] : List (List Char)) :=
  ⟨rfl, by decide⟩

theorem claim8_witness :
    processEntry ⟨[], [], []⟩ (fun _ => false) (fun _ => [])
        ⟨"p".toList, false, "response", "headers", 50⟩
        (.obj [("request", .obj [("url", .str "u")]),
          ("response", .obj [("status", .num 200)])]) =
      .ok [] :=
  (claim8_missing_optional_defaults ⟨[], [], []⟩ (fun _ => false) (fun _ => [])
    ⟨"p".toList, false, "response", "headers", 50⟩
    (.obj [("request", .obj [("url", .str "u")]),
      ("response", .obj [("status", .num 200)])])
    (.obj [("url", .str "u")]) (.str "u") [("status", .num 200)]
    rfl (by decide) rfl rfl rfl).1 rfl rfl

/-- Claim C10 (amended): `search_entries` subscripts
`entry["request"]["url"]` and `entry[search_type]` without guards, so an
entry scan that completes without raising forces the precondition: the
entry is an object whose `"request"` value is an object carrying a
`"url"` key, and the selected direction key holds an object.  (As stated
the claim names only KeyError/TypeError; a present but non-object
direction value raises AttributeError from `dict.get` — see the
counterexample — hence the amendment KeyError/TypeError/AttributeError.) -/
theorem claim10_completion_needs_wf (M : Markers) (rx : List Char → Bool)
    (it : List Char → List (Nat × Nat)) (P : Config) (entry : Json)
    (ms : List (List Char)) (hv : P.field = "url" → P.searchType = "request")
    (hf : P.field = "url" ∨ P.field = "headers" ∨ P.field = "text")
    (hok : processEntry M rx it P entry = .ok ms) :
    entryWF P.searchType entry := by
  unfold processEntry at hok
  cases hreq : jIndex entry "request" with
  | exc e => rw [hreq] at hok; cases hok
  | diverge => rw [hreq] at hok; cases hok
  | ok req =>
    rw [hreq] at hok
    dsimp only at hok
    cases hurl : jIndex req "url" with
    | exc e => rw [hurl] at hok; cases hok
    | diverge => rw [hurl] at hok; cases hok
    | ok urlJ =>
      rw [hurl] at hok
      dsimp only at hok
      cases htgt : jIndex entry P.searchType with
      | exc e => rw [htgt] at hok; cases hok
      | diverge => rw [htgt] at hok; cases hok
      | ok target =>
        rw [htgt] at hok
        dsimp only at hok
        obtain ⟨fs, hfs, hlook⟩ := jIndex_ok hreq
        obtain ⟨reqf, hreqf, hlooku⟩ := jIndex_ok hurl
        obtain ⟨fs2, hfs2, hlookt⟩ := jIndex_ok htgt
        subst hfs
        obtain rfl : fs = fs2 := Json.obj.inj hfs2
        rcases hf with hfe | hfe | hfe
        · have hst := hv hfe
          rw [hreqf] at hlook
          refine ⟨fs, reqf, rfl, hlook, ⟨urlJ, hlooku⟩, ⟨reqf, ?_⟩⟩
          rw [hst]
          exact hlook
        · rw [hfe] at hok
          simp only [show (("headers" : String) == "url") = false from rfl, Bool.false_and,
            Bool.false_eq_true, if_false,
            show (("headers" : String) == "headers") = true from rfl, if_true] at hok
          cases hjg : jGet target "headers" (Json.arr []) with
          | exc e => rw [hjg] at hok; cases hok
          | diverge => rw [hjg] at hok; cases hok
          | ok hv2 =>
            obtain ⟨tf, htf⟩ := jGet_obj hjg
            subst htf
            rw [hreqf] at hlook
            exact ⟨fs, reqf, rfl, hlook, ⟨urlJ, hlooku⟩, ⟨tf, hlookt⟩⟩
        · rw [hfe] at hok
          simp only [show (("text" : String) == "url") = false from rfl, Bool.false_and,
            Bool.false_eq_true, if_false,
            show (("text" : String) == "headers") = false from rfl,
            show (("text" : String) == "text") = true from rfl, if_true] at hok
          cases hjg : jGet target "content" (Json.obj []) with
          | exc e => rw [hjg] at hok; cases hok
          | diverge => rw [hjg] at hok; cases hok
          | ok cv =>
            obtain ⟨tf, htf⟩ := jGet_obj hjg
            subst htf
            rw [hreqf] at hlook
            exact ⟨fs, reqf, rfl, hlook, ⟨urlJ, hlooku⟩, ⟨tf, hlookt⟩⟩

/-- Claim C10 counterexample: an entry whose `response` value is a string
(not an object), searched with `-res -text`, violates the precondition and
raises — but it raises AttributeError (a string has no `get` attribute, at
`target.get`), not the KeyError/TypeError the claim names. -/
theorem claim10_counterexample :
    processEntry ⟨[], [], []⟩ (fun _ => false) (fun _ => [])
        ⟨"p".toList, false, "response", "text", 50⟩
        (.obj [("request", .obj [("url", .str "u")]), ("response", .str "nope")]) =
      .exc .attrError ∧
    PyErr.attrError ≠ PyErr.keyError ∧ PyErr.attrError ≠ PyErr.typeError :=
  ⟨rfl, by decide, by decide⟩

theorem claim10_witness :
    entryWF "response"
      (.obj [("request", .obj [("url", .str "u")]), ("response", .obj [])]) :=
  claim10_completion_needs_wf ⟨[], [], []⟩ (fun _ => false) (fun _ => [])
    ⟨"p".toList, false, "response", "text", 50⟩
    (.obj [("request", .obj [("url", .str "u")]), ("response", .obj [])]) []
    (fun h => absurd h (by decide)) (Or.inr (Or.inr rfl)) rfl

/-- Claim C9: the highlight markers are presentation-only.  Two runs that
differ only in the marker strings (e.g. ANSI codes versus empty strings)
find the same spans: both outputs are renderings of one common span list,
in the same order. -/
theorem claim9_markers_presentation_only (M1 M2 : Markers)
    (it : List Char → List (Nat × Nat)) (isRegex : Bool) (pat : List Char)
    (cc : Nat) (s : String) (url : List Char) (hp : isRegex = false → pat ≠ []) :
    ∃ spans : List (Nat × Nat),
      searchInText M1 it isRegex pat cc (.str s) url =
        .ok (spans.map (renderOne M1 cc s.toList url)) ∧
      searchInText M2 it isRegex pat cc (.str s) url =
        .ok (spans.map (renderOne M2 cc s.toList url)) := by
  cases isRegex with
  | true =>
    refine ⟨it s.toList, ?_, ?_⟩ <;> rw [searchInText_str] <;> simp
  | false =>
    have hp2 := hp rfl
    obtain ⟨sp, hsp, hrun1, _, _⟩ := searchInText_lit M1 it pat cc s url hp2
    obtain ⟨sp2, hsp2, hrun2, _, _⟩ := searchInText_lit M2 it pat cc s url hp2
    rw [hsp] at hsp2
    obtain rfl : sp = sp2 := Option.some.inj hsp2
    refine ⟨sp.map (fun pos => (pos, pos + pat.length)), ?_, ?_⟩
    · rw [hrun1, List.map_map]
      rfl
    · rw [hrun2, List.map_map]
      rfl

theorem claim9_witness :
    ∃ spans : List (Nat × Nat),
      searchInText ⟨"G".toList, "B".toList, "R".toList⟩ (fun _ => []) false "a".toList 3
          (.str "bAnana") "u".toList =
        .ok (spans.map (renderOne ⟨"G".toList, "B".toList, "R".toList⟩ 3 "bAnana".toList
          "u".toList)) ∧
      searchInText ⟨[], [], []⟩ (fun _ => []) false "a".toList 3 (.str "bAnana") "u".toList =
        .ok (spans.map (renderOne ⟨[], [], []⟩ 3 "bAnana".toList "u".toList)) :=
  claim9_markers_presentation_only ⟨"G".toList, "B".toList, "R".toList⟩ ⟨[], [], []⟩
    (fun _ => []) false "a".toList 3 "bAnana" "u".toList (fun _ => by decide)

end HarSearch

